import Mathlib

/-!
Verification development for the specdown markdown test runner.

The Rust sources embedded here are the parser of code-block and blockquote
info strings (src/parser/code_block_info.rs, src/parser/blockquote_info.rs),
the sequential action runner (src/runner/mod.rs) and the run command with its
exit-code fold (src/commands/run.rs).  Modules of the repository that are not
in the staged sources (function_string.rs, runner/state.rs, runner/verify.rs,
runner/script.rs, runner/file.rs, runner/error.rs, exit_codes.rs,
results/test_result.rs) are modelled from the specification, as noted on each
definition.
-/

namespace Specdown

/-- Which output channel of a script a verify action compares against.
From src/parser types usage: Stream has StdOut, StdErr and Output variants. -/
inductive Stream where
  | stdOut
  | stdErr
  | output
deriving DecidableEq, Repr

/-- A (script name, stream) pair naming previously captured output.
Script names are newtypes over plain text, embedded as String. -/
structure Source where
  name : String
  stream : Stream
deriving DecidableEq, Repr

/-- One executable unit, from the spec data model and the match arms of
run_action in src/runner/mod.rs. -/
inductive Action where
  | script (scriptName : String) (scriptCode : String) (expectedExitCode : Option Nat)
  | verify (source : Source) (expectedValue : String)
  | createFile (filePath : String) (fileContent : String)
deriving DecidableEq, Repr

/-- Modelled from the spec: the tagged union of argument values produced by
the function_string grammar (function_string.rs is not among the staged
sources).  String literal, bare token, or unsigned integer. -/
inductive ArgumentValue where
  | str (s : String)
  | int (n : Nat)
  | token (t : String)
deriving DecidableEq, Repr

/-- Modelled from the spec: a parsed function call, a name and a mapping from
argument names to values.  The mapping is kept as the list of bindings in
source order; lookups take the last binding of a name, matching the
last-write-wins overwrite the spec records for repeated names. -/
structure Function where
  name : String
  arguments : List (String × ArgumentValue)
deriving DecidableEq, Repr

/-- Lookup of an argument by name, last occurrence winning. -/
def Function.getArg (f : Function) (n : String) : Option ArgumentValue :=
  (f.arguments.reverse.find? (fun a => a.1 = n)).map (fun a => a.2)

/-- From has_argument usage in src/parser/code_block_info.rs line 39. -/
def Function.hasArgument (f : Function) (n : String) : Bool :=
  (f.getArg n).isSome

/-! ## The function_string grammar

Modelled from the spec grammar in section 6:

  function := identifier "(" ( arg ("," ws* arg)* )? ")"
  arg      := identifier "=" value
  value    := quoted string | identifier | digit+

The parser works on character lists and is total by construction. -/

def isIdentStart (c : Char) : Bool := c.isAlpha || c = '_'

def isIdentChar (c : Char) : Bool := c.isAlphanum || c = '_' || c = '-'

/-- Split a character list at the longest p-satisfying run at its head. -/
def spanList (p : Char → Bool) : List Char → List Char × List Char
  | [] => ([], [])
  | c :: cs =>
    if p c then
      let r := spanList p cs
      (c :: r.1, r.2)
    else ([], c :: cs)

/-- Modelled from the spec: an identifier is a letter or underscore followed
by identifier characters. -/
def parseIdent (cs : List Char) : Option (String × List Char) :=
  match cs with
  | [] => none
  | c :: _ =>
    if isIdentStart c then
      let r := spanList isIdentChar cs
      some (String.mk r.1, r.2)
    else none

/-- Modelled from the spec: a double-quoted string literal with no escape
processing. -/
def parseStringLit (cs : List Char) : Option (String × List Char) :=
  match cs with
  | '"' :: rest =>
    let r := spanList (fun c => c ≠ '"') rest
    match r.2 with
    | '"' :: rest2 => some (String.mk r.1, rest2)
    | _ => none
  | _ => none

def digitsToNat (ds : List Char) : Nat :=
  ds.foldl (fun n c => n * 10 + (c.toNat - 48)) 0

/-- Modelled from the spec: an unsigned integer literal, digit+. -/
def parseNat (cs : List Char) : Option (Nat × List Char) :=
  let r := spanList Char.isDigit cs
  if r.1.isEmpty then none else some (digitsToNat r.1, r.2)

/-- Modelled from the spec: value := string | integer | token. -/
def parseValue (cs : List Char) : Option (ArgumentValue × List Char) :=
  match parseStringLit cs with
  | some (s, r) => some (.str s, r)
  | none =>
    match parseNat cs with
    | some (n, r) => some (.int n, r)
    | none =>
      match parseIdent cs with
      | some (t, r) => some (.token t, r)
      | none => none

/-- Modelled from the spec: arg := identifier "=" value. -/
def parseArg (cs : List Char) : Option ((String × ArgumentValue) × List Char) :=
  match parseIdent cs with
  | none => none
  | some (n, r1) =>
    match r1 with
    | '=' :: r2 =>
      match parseValue r2 with
      | some (v, r3) => some ((n, v), r3)
      | none => none
    | _ => none

def skipSpaces (cs : List Char) : List Char := cs.dropWhile (fun c => c = ' ')

/-- Modelled from the spec: the ("," ws* arg)* tail of an argument list.
Fuel decreases every round; the initial fuel below always suffices because
each round consumes at least the comma. -/
def parseMoreArgs : Nat → List Char → Option (List (String × ArgumentValue) × List Char)
  | 0, _ => none
  | fuel + 1, cs =>
    match cs with
    | ',' :: r =>
      match parseArg (skipSpaces r) with
      | some (a, r2) =>
        match parseMoreArgs fuel r2 with
        | some (as, r3) => some (a :: as, r3)
        | none => none
      | none => none
    | _ => some ([], cs)

/-- Modelled from the spec: function := identifier "(" args? ")".  Returns
the parsed Function and the unconsumed remainder, mirroring how the nom
combinator hands back remaining input. -/
def funcParse (cs : List Char) : Option (Function × List Char) :=
  match parseIdent cs with
  | none => none
  | some (name, r1) =>
    match r1 with
    | '(' :: r2 =>
      match r2 with
      | ')' :: r3 => some (⟨name, []⟩, r3)
      | _ =>
        match parseArg r2 with
        | some (a, r3) =>
          match parseMoreArgs (r3.length + 1) r3 with
          | some (as, r4) =>
            match r4 with
            | ')' :: r5 => some (⟨name, a :: as⟩, r5)
            | _ => none
          | none => none
        | none => none
    | _ => none

/-- The take_until(",") then tag(",") step shared by both parse functions
(src/parser/code_block_info.rs line 19, src/parser/blockquote_info.rs line
50): everything before the first comma is the language tag; with no comma the
match fails. -/
def splitAtComma : List Char → Option (List Char × List Char)
  | [] => none
  | ',' :: r => some ([], r)
  | c :: r =>
    match splitAtComma r with
    | some (a, b) => some (c :: a, b)
    | none => none

/-- The shared raw grammar of both info-string parse functions: language tag
up to the first comma, the comma, then a function_string, leftover input
ignored. -/
def rawParse (input : String) : Option Function :=
  match splitAtComma input.toList with
  | none => none
  | some (_, rest) =>
    match funcParse rest with
    | some (f, _) => some f
    | none => none

/-! ## Code-block translation (src/parser/code_block_info.rs) -/

/-- The parser error taxonomy of the code-block path.  The enum lives in
parser/error.rs which is not staged; its constructors and fields are taken
from every construction site in src/parser/code_block_info.rs and its tests. -/
inductive CBError where
  | parserFailed (msg : String)
  | unknownFunction (name : String)
  | missingArgument (function : String) (argument : String)
  | incorrectArgumentType (function : String) (argument : String)
      (expected : String) (got : String)
  | invalidArgumentValue (function : String) (argument : String)
      (got : String) (expected : String)
deriving DecidableEq, Repr

/-- From the CodeBlockType enum, src/parser/code_block_info.rs lines 11-16. -/
inductive CodeBlockType where
  | script (name : String) (expectedExitCode : Option Nat)
  | verify (source : Source)
  | createFile (path : String)
deriving DecidableEq, Repr

/-- From get_required_argument, src/parser/code_block_info.rs lines 102-110. -/
def getRequiredArgument (f : Function) (name : String) : Except CBError ArgumentValue :=
  match f.getArg name with
  | some v => .ok v
  | none => .error (.missingArgument f.name name)

/-- From get_integer_argument, src/parser/code_block_info.rs lines 72-80. -/
def getIntegerArgument (f : Function) (name : String) : Except CBError Nat :=
  match getRequiredArgument f name with
  | .error e => .error e
  | .ok (.int n) => .ok n
  | .ok (.str _) => .error (.incorrectArgumentType f.name name "integer" "string")
  | .ok (.token _) => .error (.incorrectArgumentType f.name name "integer" "token")

/-- From get_string_argument, src/parser/code_block_info.rs lines 82-90. -/
def getStringArgument (f : Function) (name : String) : Except CBError String :=
  match getRequiredArgument f name with
  | .error e => .error e
  | .ok (.str s) => .ok s
  | .ok (.int _) => .error (.incorrectArgumentType f.name name "string" "integer")
  | .ok (.token _) => .error (.incorrectArgumentType f.name name "string" "token")

/-- From get_token_argument, src/parser/code_block_info.rs lines 92-100. -/
def getTokenArgument (f : Function) (name : String) : Except CBError String :=
  match getRequiredArgument f name with
  | .error e => .error e
  | .ok (.token t) => .ok t
  | .ok (.int _) => .error (.incorrectArgumentType f.name name "token" "integer")
  | .ok (.str _) => .error (.incorrectArgumentType f.name name "token" "string")

/-- From to_stream, src/parser/code_block_info.rs lines 64-70: only stdout
and stderr are recognised on the code-block path. -/
def cbToStream (streamName : String) : Option Stream :=
  if streamName = "stdout" then some .stdOut
  else if streamName = "stderr" then some .stdErr
  else none

/-- From script_to_code_block_type, src/parser/code_block_info.rs lines 37-45. -/
def scriptToCodeBlockType (f : Function) : Except CBError CodeBlockType :=
  match getStringArgument f "name" with
  | .error e => .error e
  | .ok name =>
    if f.hasArgument "expected_exit_code" then
      match getIntegerArgument f "expected_exit_code" with
      | .error e => .error e
      | .ok n => .ok (.script name (some n))
    else .ok (.script name none)

/-- From file_to_code_block_type, src/parser/code_block_info.rs lines 47-50. -/
def fileToCodeBlockType (f : Function) : Except CBError CodeBlockType :=
  match getStringArgument f "path" with
  | .error e => .error e
  | .ok path => .ok (.createFile path)

/-- From verify_to_code_block_type, src/parser/code_block_info.rs lines 52-62. -/
def verifyToCodeBlockType (f : Function) : Except CBError CodeBlockType :=
  match getStringArgument f "script_name" with
  | .error e => .error e
  | .ok name =>
    match getTokenArgument f "stream" with
    | .error e => .error e
    | .ok streamName =>
      match cbToStream streamName with
      | some stream => .ok (.verify ⟨name, stream⟩)
      | none =>
        .error (.invalidArgumentValue f.name "stream" streamName
          "output, stdout or stderr")

/-- From to_code_block_type, src/parser/code_block_info.rs lines 28-35. -/
def toCodeBlockType (f : Function) : Except CBError CodeBlockType :=
  if f.name = "script" then scriptToCodeBlockType f
  else if f.name = "verify" then verifyToCodeBlockType f
  else if f.name = "file" then fileToCodeBlockType f
  else .error (.unknownFunction f.name)

/-- From parse, src/parser/code_block_info.rs lines 18-26.  A grammar
mismatch becomes ParserFailed carrying the nom error description; the
description text is modelled as the raw input since nom is external. -/
def cbParse (input : String) : Except CBError CodeBlockType :=
  match rawParse input with
  | some f => toCodeBlockType f
  | none => .error (.parserFailed input)

/-! ## Blockquote translation (src/parser/blockquote_info.rs) -/

/-- From the Error enum, src/parser/blockquote_info.rs lines 18-25.  Note
IncorrectArgumentType and InvalidArgumentValue carry only two fields here. -/
inductive BQError where
  | parserFailed (msg : String)
  | unknownFunction (name : String)
  | missingArgument (function : String) (argument : String)
  | incorrectArgumentType (expected : String) (got : String)
  | invalidArgumentValue (got : String) (expected : String)
deriving DecidableEq, Repr

/-- From the BlockQuoteTypes enum, src/parser/blockquote_info.rs lines 12-16. -/
inductive BlockQuoteTypes where
  | script (name : String)
  | verify (source : Source)
deriving DecidableEq, Repr

/-- From get_string_argument, src/parser/blockquote_info.rs lines 86-99.
The staged source matches only the String and Token variants; the Integer
arm is completed after the code-block analogue. -/
def bqGetStringArgument (f : Function) (name : String) : Except BQError String :=
  match f.getArg name with
  | none => .error (.missingArgument f.name name)
  | some (.str s) => .ok s
  | some (.token _) => .error (.incorrectArgumentType "string" "token")
  | some (.int _) => .error (.incorrectArgumentType "string" "integer")

/-- From get_token_argument, src/parser/blockquote_info.rs lines 101-114.
The staged source matches only the Token and String variants; the Integer
arm is completed after the code-block analogue. -/
def bqGetTokenArgument (f : Function) (name : String) : Except BQError String :=
  match f.getArg name with
  | none => .error (.missingArgument f.name name)
  | some (.token t) => .ok t
  | some (.str _) => .error (.incorrectArgumentType "token" "string")
  | some (.int _) => .error (.incorrectArgumentType "token" "integer")

/-- From to_stream, src/parser/blockquote_info.rs lines 74-84: output,
stdout and stderr are all recognised on the blockquote path. -/
def bqToStream (streamName : String) : Except BQError Stream :=
  if streamName = "output" then .ok .output
  else if streamName = "stdout" then .ok .stdOut
  else if streamName = "stderr" then .ok .stdErr
  else .error (.invalidArgumentValue streamName "output, stdout or stderr")

/-- From to_blockquote_type, src/parser/blockquote_info.rs lines 59-72. -/
def toBlockquoteType (f : Function) : Except BQError BlockQuoteTypes :=
  if f.name = "script" then
    match bqGetStringArgument f "name" with
    | .error e => .error e
    | .ok name => .ok (.script name)
  else if f.name = "verify" then
    match bqGetStringArgument f "script_name" with
    | .error e => .error e
    | .ok name =>
      match bqGetTokenArgument f "stream" with
      | .error e => .error e
      | .ok streamName =>
        match bqToStream streamName with
        | .error e => .error e
        | .ok stream => .ok (.verify ⟨name, stream⟩)
  else .error (.unknownFunction f.name)

/-- From parse, src/parser/blockquote_info.rs lines 49-57; same raw grammar
as the code-block path. -/
def bqParse (input : String) : Except BQError BlockQuoteTypes :=
  match rawParse input with
  | some f => toBlockquoteType f
  | none => .error (.parserFailed input)

/-! ## The runner (src/runner/mod.rs)

The runner state, its error type and the per-action helpers live in modules
that are not staged (runner/state.rs, runner/error.rs, runner/script.rs,
runner/verify.rs, runner/file.rs, results/test_result.rs); they are modelled
from the spec as marked.  The control flow of run_actions, run_all_actions,
run_single_action and run_action is embedded from src/runner/mod.rs. -/

/-- Modelled from the spec: the captured outcome of one executed script,
ScriptResult with name, stdout, stderr and exit code. -/
structure ScriptResult where
  name : String
  stdout : String
  stderr : String
  exitCode : Nat
deriving DecidableEq, Repr

/-- Modelled from the spec: one TestResult per script or verify action, a
description, whether it passed, and detail.  The detail carries the
ScriptResult of a script action so that State.add_result can index it by
name, which is how a later verify finds the captured output. -/
structure TestResult where
  description : String
  passed : Bool
  script : Option ScriptResult
deriving DecidableEq, Repr

/-- Modelled from the spec: runner State (runner/state.rs is not staged), an
overwrite mapping from script name to ScriptResult plus the success
accumulator, success true iff every added result passed. -/
structure State where
  scripts : List (String × ScriptResult)
  success : Bool
deriving DecidableEq, Repr

/-- Modelled from the spec: State is created empty at the start of a run. -/
def State.new : State := ⟨[], true⟩

/-- Modelled from the spec: add_result records a TestResult, storing its
ScriptResult under its name (newer entries shadow older ones, last write
wins) and folding its passed flag into the success accumulator. -/
def State.addResult (st : State) (r : TestResult) : State :=
  { scripts :=
      match r.script with
      | some sr => (sr.name, sr) :: st.scripts
      | none => st.scripts
    success := st.success && r.passed }

/-- Modelled from the spec: lookup of the captured result of a named script,
most recent entry first. -/
def State.getScript (st : State) (name : String) : Option ScriptResult :=
  (st.scripts.find? (fun e => e.1 = name)).map (fun e => e.2)

/-- Modelled from the spec: is_success reads the success accumulator. -/
def State.isSuccess (st : State) : Bool := st.success

/-- The runner error type (runner/error.rs is not staged).  RunFailed with a
message field is constructed in src/commands/run.rs line 92 and matched on
line 123; the remaining fatal variants are modelled from the spec taxonomy:
a bad shell-command template, a verify naming a script never executed, and
an I/O failure. -/
inductive RError where
  | runFailed (message : String)
  | badShellCommand (command : String)
  | scriptOutputMissing (name : String)
  | ioError (message : String)
deriving DecidableEq, Repr

/-- An executor behaviour: what the shell returns for a given script body.
Modelled from the spec Executor contract, run(code) yielding stdout, stderr
and exit code, with launch failures surfacing as errors.  The runner is
parameterised over this, mirroring the dyn Executor injection. -/
def Executor : Type := String → Except RError ScriptResult

/-- Modelled from the spec: Shell::new splits the shell-command template
into an executable and argument list and fails when that is impossible,
which is when the template is empty. -/
def shellNew (shellCommand : String) : Except RError Unit :=
  if shellCommand.isEmpty then .error (.badShellCommand shellCommand) else .ok ()

/-- The captured content of one stream of a ScriptResult; Output denotes the
combined capture, per the spec Verifier contract. -/
def streamContent (sr : ScriptResult) : Stream → String
  | .stdOut => sr.stdout
  | .stdErr => sr.stderr
  | .output => sr.stdout ++ sr.stderr

/-- Modelled from the spec: script::run invokes the executor with the body,
builds the ScriptResult, and passes iff the exit code equals the expected
one when given, else the default success code 0. -/
def scriptRun (exec : Executor) (scriptName : String) (scriptCode : String)
    (expectedExitCode : Option Nat) : Except RError TestResult :=
  match exec scriptCode with
  | .error e => .error e
  | .ok r =>
    let passed :=
      match expectedExitCode with
      | some c => r.exitCode = c
      | none => r.exitCode = 0
    .ok ⟨scriptName, passed,
      some ⟨scriptName, r.stdout, r.stderr, r.exitCode⟩⟩

/-- Modelled from the spec: verify::run looks the source name up in State; a
missing script is a fatal error, a present one yields a TestResult passing
iff the expected value equals the captured stream content exactly. -/
def verifyRun (source : Source) (expectedValue : String) (st : State) :
    Except RError TestResult :=
  match st.getScript source.name with
  | none => .error (.scriptOutputMissing source.name)
  | some sr => .ok ⟨source.name, expectedValue = streamContent sr source.stream, none⟩

/-- Modelled from the spec: file::run writes the content and returns a
TestResult; at the call site in src/runner/mod.rs line 83 it is infallible,
so the pure model returns a passing result (the write itself is an ambient
effect outside the model). -/
def fileRun (filePath : String) (_fileContent : String) : TestResult :=
  ⟨filePath, true, none⟩

/-- From run_action, src/runner/mod.rs lines 65-85: dispatch on the action. -/
def runAction (exec : Executor) (action : Action) (st : State) :
    Except RError TestResult :=
  match action with
  | .script name code expected => scriptRun exec name code expected
  | .verify source expected => verifyRun source expected st
  | .createFile path content => .ok (fileRun path content)

/-- One unit of the observable run timeline, from the RunEvent enum in
src/runner/mod.rs lines 18-24. -/
inductive RunEvent where
  | specFileStarted (path : String)
  | testCompleted (result : TestResult)
  | specFileCompleted (success : Bool)
  | errorOccurred (error : RError)
deriving DecidableEq, Repr

/-- From run_single_action, src/runner/mod.rs lines 54-63: on success the
result is added to State and wrapped as TestCompleted; on failure State is
left untouched. -/
def runSingleAction (exec : Executor) (st : State) (action : Action) :
    Except RError RunEvent × State :=
  match runAction exec action st with
  | .error e => (.error e, st)
  | .ok r => (.ok (.testCompleted r), st.addResult r)

/-- The iterator-collect loop inside run_all_actions, src/runner/mod.rs
lines 48-51: actions run in order; the first error short-circuits and the
events of the already-run actions are dropped, while the State mutations of
those actions are kept. -/
def runAllActionsGo (exec : Executor) : List Action → State →
    Except RError (List RunEvent) × State
  | [], st => (.ok [], st)
  | action :: rest, st =>
    match runSingleAction exec st action with
    | (.error e, st1) => (.error e, st1)
    | (.ok ev, st1) =>
      match runAllActionsGo exec rest st1 with
      | (.ok evs, st2) => (.ok (ev :: evs), st2)
      | (.error e, st2) => (.error e, st2)

/-- From run_all_actions, src/runner/mod.rs lines 42-52: construct the shell
executor from the template, then run every action. -/
def runAllActions (exec : Executor) (shellCommand : String) (actions : List Action)
    (st : State) : Except RError (List RunEvent) × State :=
  match shellNew shellCommand with
  | .error e => (.error e, st)
  | .ok _ => runAllActionsGo exec actions st

/-- From run_actions, src/runner/mod.rs lines 26-40: SpecFileStarted, then
either the per-action events or a single ErrorOccurred, then always a
SpecFileCompleted carrying State.is_success. -/
def runActions (exec : Executor) (specFile : String) (actions : List Action)
    (shellCommand : String) : List RunEvent :=
  let r := runAllActions exec shellCommand actions State.new
  let runEvents : List RunEvent :=
    match r.1 with
    | .ok evs => evs
    | .error e => [.errorOccurred e]
  (.specFileStarted specFile :: runEvents) ++ [.specFileCompleted r.2.isSuccess]

/-! ## Exit codes and the run command (src/commands/run.rs) -/

/-- The exit-code classes (exit_codes.rs is not staged; the three variants
are taken from their uses in src/commands/run.rs lines 112-125 and the spec
classes: full success, failing test, structural error). -/
inductive ExitCode where
  | success
  | testFailed
  | errorOccurred
deriving DecidableEq, Repr

/-- The loop body of events_to_exitcode, src/commands/run.rs lines 111-132,
with the mutable accumulator made explicit: SpecFileCompleted with success
false downgrades a Success accumulator to TestFailed; the first
ErrorOccurred returns immediately, TestFailed for a RunFailed and the
distinct ErrorOccurred class otherwise; every other event is skipped. -/
def eventsToExitcodeGo : List RunEvent → ExitCode → ExitCode
  | [], ec => ec
  | .specFileCompleted false :: rest, ec =>
    eventsToExitcodeGo rest (if ec = .success then .testFailed else ec)
  | .errorOccurred e :: _, _ =>
    match e with
    | .runFailed _ => .testFailed
    | _ => .errorOccurred
  | _ :: rest, ec => eventsToExitcodeGo rest ec

/-- From events_to_exitcode, src/commands/run.rs lines 111-132. -/
def eventsToExitcode (events : List RunEvent) : ExitCode :=
  eventsToExitcodeGo events .success

/-- Whether an event is an ErrorOccurred. -/
def isErrorEvent : RunEvent → Bool
  | .errorOccurred _ => true
  | _ => false

/-- Whether an event is a SpecFileCompleted with success false. -/
def isFailedCompletion : RunEvent → Bool
  | .specFileCompleted s => !s
  | _ => false

/-- The exit class of a run error as the claim states it: RunFailed is a
test failure, everything else the distinct structural class. -/
def errorExit : RError → ExitCode
  | .runFailed _ => .testFailed
  | _ => .errorOccurred

/-- The error wrapped by the first ErrorOccurred of the sequence, if any. -/
def errorHead (events : List RunEvent) : Option RError :=
  match events.dropWhile (fun e => !isErrorEvent e) with
  | .errorOccurred e :: _ => some e
  | _ => none

/-- The exit-code decision as the spec words it, stated independently of the
loop: the first ErrorOccurred alone decides the result, ignoring everything
after it; with no error before it, the result is TestFailed iff some
SpecFileCompleted with success false occurs before the first error, else
Success. -/
def specExitcode (events : List RunEvent) : ExitCode :=
  match errorHead events with
  | some e => errorExit e
  | none =>
    if (events.takeWhile (fun e => !isErrorEvent e)).any isFailedCompletion then
      .testFailed
    else .success

/-- From the for loop of RunCommand::execute, src/commands/run.rs lines
75-87: spec files are processed in order; run_spec_file is abstracted as
the runFile parameter; a non-success exit code terminates the process, so
no later file is touched.  The returned trace lists exactly the files on
which runFile was invoked, with their exit codes. -/
def executeFiles (runFile : String → ExitCode) : List String → List (String × ExitCode)
  | [] => []
  | f :: rest =>
    let ec := runFile f
    if ec = .success then (f, ec) :: executeFiles runFile rest
    else [(f, ec)]

/-! ## Path resolution (src/commands/run.rs) -/

/-- A file-system path: whether it has a root, and its components. -/
structure RPath where
  absolute : Bool
  components : List String
deriving DecidableEq, Repr

/-- From Path::has_root as used in src/commands/run.rs line 162. -/
def RPath.hasRoot (p : RPath) : Bool := p.absolute

/-- Path join: an argument with a root replaces the base, otherwise the
components are appended, following PathBuf::join. -/
def pathJoin (base p : RPath) : RPath :=
  if p.absolute then p else ⟨base.absolute, base.components ++ p.components⟩

/-- From RunCommand::to_absolute, src/commands/run.rs lines 161-167: a
rooted path is returned unchanged, any other is joined onto spec_dir. -/
def toAbsolute (specDir path : RPath) : RPath :=
  if path.hasRoot then path else pathJoin specDir path

/-- The ambient process state the run command mutates: its working
directory. -/
structure ProcState where
  cwd : RPath
deriving DecidableEq, Repr

/-- From RunCommand::change_to_running_directory, src/commands/run.rs lines
154-159: with a running directory given, the process working directory is
switched into it (creating it as needed, an effect outside the model). -/
def changeToRunningDirectory (proc : ProcState) (runningDir : Option RPath) : ProcState :=
  match runningDir with
  | none => proc
  | some d => ⟨pathJoin proc.cwd d⟩

/-- The order-sensitive pipeline of execute and RunCommand::execute,
src/commands/run.rs lines 40-64 and 75-87: spec_dir is captured from the
current working directory at line 52, before change_to_running_directory
runs at line 76; read_file then resolves the spec file with to_absolute
against that captured spec_dir (line 151).  Returns the resolved path and
the process state after the directory switch. -/
def executeModel (proc : ProcState) (runningDir : Option RPath) (specFile : RPath) :
    RPath × ProcState :=
  let specDir := proc.cwd
  let proc1 := changeToRunningDirectory proc runningDir
  (toAbsolute specDir specFile, proc1)

/-! ## Concrete instances used by witnesses and counterexamples -/

/-- A concrete executor behaviour: every script prints out on stdout, err on
stderr and exits with 0. -/
def execConst : Executor := fun _ => .ok ⟨"", "out", "err", 0⟩

/-- Whether an Except value is an ok. -/
def exceptIsOk {ε α : Type} : Except ε α → Bool
  | .ok _ => true
  | .error _ => false

/-- A concrete per-file runner: the file a.md succeeds, every other fails. -/
def runFileProbe (specFile : String) : ExitCode :=
  if specFile = "a.md" then .success else .testFailed

/-! ## Helper lemmas -/

/-- Dropping leading non-error events leaves the first wrapped error alone. -/
theorem errorHead_cons_ne (e : RunEvent) (rest : List RunEvent)
    (h : isErrorEvent e = false) : errorHead (e :: rest) = errorHead rest := by
  simp [errorHead, List.dropWhile_cons, h]

/-- The first wrapped error of a sequence headed by an ErrorOccurred. -/
theorem errorHead_cons_err (err : RError) (rest : List RunEvent) :
    errorHead (.errorOccurred err :: rest) = some err := by
  simp [errorHead, List.dropWhile_cons, isErrorEvent]

/-- With the accumulator already at TestFailed, the loop of events_to_exitcode
returns the class of the first wrapped error, or TestFailed with no error. -/
theorem go_testFailed (events : List RunEvent) :
    eventsToExitcodeGo events .testFailed =
      (match errorHead events with
       | some e => errorExit e
       | none => ExitCode.testFailed) := by
  induction events with
  | nil => rfl
  | cons e rest ih =>
    cases e with
    | errorOccurred err =>
      rw [errorHead_cons_err]
      cases err <;> rfl
    | specFileStarted p =>
      rw [errorHead_cons_ne (.specFileStarted p) rest rfl]
      exact ih
    | testCompleted r =>
      rw [errorHead_cons_ne (.testCompleted r) rest rfl]
      exact ih
    | specFileCompleted s =>
      rw [errorHead_cons_ne (.specFileCompleted s) rest (by cases s <;> rfl)]
      cases s with
      | true => exact ih
      | false =>
        have h : eventsToExitcodeGo (RunEvent.specFileCompleted false :: rest)
            ExitCode.testFailed = eventsToExitcodeGo rest ExitCode.testFailed := rfl
        rw [h, ih]

/-- Starting at Success, the loop of events_to_exitcode computes the
short-circuiting fold specExitcode. -/
theorem go_success (events : List RunEvent) :
    eventsToExitcodeGo events .success = specExitcode events := by
  induction events with
  | nil => rfl
  | cons e rest ih =>
    cases e with
    | errorOccurred err =>
      unfold specExitcode
      rw [errorHead_cons_err]
      cases err <;> rfl
    | specFileStarted p =>
      unfold specExitcode
      rw [errorHead_cons_ne (.specFileStarted p) rest rfl]
      unfold specExitcode at ih
      rw [show eventsToExitcodeGo (RunEvent.specFileStarted p :: rest) .success
        = eventsToExitcodeGo rest .success from rfl, ih]
      rw [show List.takeWhile (fun e => !isErrorEvent e) (RunEvent.specFileStarted p :: rest)
        = RunEvent.specFileStarted p :: List.takeWhile (fun e => !isErrorEvent e) rest from by
          simp [List.takeWhile_cons, isErrorEvent]]
      simp [List.any_cons, isFailedCompletion]
    | testCompleted r =>
      unfold specExitcode
      rw [errorHead_cons_ne (.testCompleted r) rest rfl]
      unfold specExitcode at ih
      rw [show eventsToExitcodeGo (RunEvent.testCompleted r :: rest) .success
        = eventsToExitcodeGo rest .success from rfl, ih]
      rw [show List.takeWhile (fun e => !isErrorEvent e) (RunEvent.testCompleted r :: rest)
        = RunEvent.testCompleted r :: List.takeWhile (fun e => !isErrorEvent e) rest from by
          simp [List.takeWhile_cons, isErrorEvent]]
      simp [List.any_cons, isFailedCompletion]
    | specFileCompleted s =>
      unfold specExitcode
      rw [errorHead_cons_ne (.specFileCompleted s) rest (by cases s <;> rfl)]
      rw [show List.takeWhile (fun e => !isErrorEvent e) (RunEvent.specFileCompleted s :: rest)
        = RunEvent.specFileCompleted s :: List.takeWhile (fun e => !isErrorEvent e) rest from by
          simp [List.takeWhile_cons, isErrorEvent]]
      cases s with
      | true =>
        unfold specExitcode at ih
        rw [show eventsToExitcodeGo (RunEvent.specFileCompleted true :: rest) .success
          = eventsToExitcodeGo rest .success from rfl, ih]
        simp [List.any_cons, isFailedCompletion]
      | false =>
        rw [show eventsToExitcodeGo (RunEvent.specFileCompleted false :: rest) .success
          = eventsToExitcodeGo rest .testFailed from rfl, go_testFailed]
        simp only [List.any_cons, isFailedCompletion, Bool.not_false, Bool.true_or]
        cases hE : errorHead rest <;> simp

/-! ## Claim theorems -/

/-- Claim C1, amended: when some action fails fatally (missing referenced
script, bad shell template, I/O failure), run_actions does NOT preserve the
events emitted for the earlier actions.  The iterator collect in
run_all_actions drops every TestCompleted produced before the failure, so
the output is exactly SpecFileStarted, the single ErrorOccurred, and the
closing SpecFileCompleted carrying the success flag of the retained State. -/
theorem fatal_error_discards_prior_events (exec : Executor) (spec shell : String)
    (actions : List Action) (e : RError) (st1 : State)
    (h : runAllActions exec shell actions State.new = (.error e, st1)) :
    runActions exec spec actions shell =
      [.specFileStarted spec, .errorOccurred e, .specFileCompleted st1.isSuccess] := by
  simp [runActions, h]

/-- Witness for C1: a createFile action followed by a verify of a script
never executed; the fatal error at position 1 leaves only the three fixed
events. -/
theorem fatal_error_discards_prior_events_witness :
    runActions execConst "s.md"
      [.createFile "f.txt" "hi", .verify ⟨"missing", .stdOut⟩ "x"] "bash -c" =
      [.specFileStarted "s.md", .errorOccurred (.scriptOutputMissing "missing"),
       .specFileCompleted true] :=
  fatal_error_discards_prior_events execConst "s.md" "bash -c"
    [.createFile "f.txt" "hi", .verify ⟨"missing", .stdOut⟩ "x"]
    (.scriptOutputMissing "missing") State.new rfl

/-- Counterexample to C1 as stated: the createFile action at position 0
emits a TestCompleted when it is the whole document, yet when it is followed
by a fatally failing verify at position 1 that TestCompleted is absent from
the output of run_actions — the events before the fatal error are not
preserved. -/
theorem fatal_error_counterexample :
    runActions execConst "s.md" [.createFile "f.txt" "hi"] "bash -c" =
      [.specFileStarted "s.md", .testCompleted ⟨"f.txt", true, none⟩,
       .specFileCompleted true] ∧
    runActions execConst "s.md"
      [.createFile "f.txt" "hi", .verify ⟨"missing", .stdOut⟩ "x"] "bash -c" =
      [.specFileStarted "s.md", .errorOccurred (.scriptOutputMissing "missing"),
       .specFileCompleted true] :=
  ⟨rfl, rfl⟩

/-- Claim C2, amended: for a document whose only action is a Verify naming a
script never executed, run_actions emits SpecFileStarted, then ErrorOccurred,
then — contrary to the claim as stated — a SpecFileCompleted with success
true (the State saw no failing result); the exit class of the sequence is
still the structural ErrorOccurred one, since the wrapped error is not a
RunFailed. -/
theorem verify_missing_event_sequence (exec : Executor) (spec shell name expected : String)
    (stream : Stream) (h : shellNew shell = .ok ()) :
    runActions exec spec [.verify ⟨name, stream⟩ expected] shell =
      [.specFileStarted spec, .errorOccurred (.scriptOutputMissing name),
       .specFileCompleted true] ∧
    eventsToExitcode (runActions exec spec [.verify ⟨name, stream⟩ expected] shell) =
      .errorOccurred := by
  have hrun : runAllActions exec shell [.verify ⟨name, stream⟩ expected] State.new =
      (.error (.scriptOutputMissing name), State.new) := by
    simp [runAllActions, h, runAllActionsGo, runSingleAction, runAction, verifyRun,
      State.getScript, State.new]
  constructor
  · simp only [runActions]
    rw [hrun]
    simp [State.isSuccess, State.new]
  · simp only [runActions]
    rw [hrun]
    simp [State.isSuccess, State.new, eventsToExitcode, eventsToExitcodeGo]

/-- Witness for C2: the concrete lone verify of a missing script. -/
theorem verify_missing_event_sequence_witness :
    runActions execConst "spec.md" [.verify ⟨"missing", .stdOut⟩ "hello"] "bash -c" =
      [.specFileStarted "spec.md", .errorOccurred (.scriptOutputMissing "missing"),
       .specFileCompleted true] ∧
    eventsToExitcode
        (runActions execConst "spec.md" [.verify ⟨"missing", .stdOut⟩ "hello"] "bash -c") =
      .errorOccurred :=
  verify_missing_event_sequence execConst "spec.md" "bash -c" "missing" "hello" .stdOut rfl

/-- Counterexample to C2 as stated: the run of the lone missing-script
verify ends with a SpecFileCompleted event, which the claim says is never
emitted. -/
theorem verify_missing_counterexample :
    runActions execConst "spec.md" [.verify ⟨"missing", .stdOut⟩ "hello"] "bash -c" =
      [.specFileStarted "spec.md", .errorOccurred (.scriptOutputMissing "missing"),
       .specFileCompleted true] :=
  rfl

/-- Claim C3: events_to_exitcode equals the fold that starts at Success,
downgrades to TestFailed on a SpecFileCompleted with success false while
still at Success, and is decided by the first ErrorOccurred alone — TestFailed
when it wraps a RunFailed, the distinct ErrorOccurred class otherwise —
ignoring every later event. -/
theorem exitcode_fold_spec : ∀ events, eventsToExitcode events = specExitcode events := by
  intro events
  exact go_success events

/-- Claim C4: a verify whose referenced script result is present in State
and whose expected value differs from the captured stream content yields a
TestCompleted with passed false and does not abort: the runner continues
with the remaining actions from the updated State. -/
theorem verify_mismatch_not_fatal (exec : Executor) (src : Source) (expected : String)
    (rest : List Action) (st : State) (sr : ScriptResult)
    (h : st.getScript src.name = some sr)
    (hm : expected ≠ streamContent sr src.stream) :
    runAllActionsGo exec (.verify src expected :: rest) st =
      (match runAllActionsGo exec rest (st.addResult ⟨src.name, false, none⟩) with
       | (.ok evs, st2) => (.ok (.testCompleted ⟨src.name, false, none⟩ :: evs), st2)
       | (.error e, st2) => (.error e, st2)) := by
  have hv : verifyRun src expected st = .ok ⟨src.name, false, none⟩ := by
    simp [verifyRun, h, hm]
  simp [runAllActionsGo, runSingleAction, runAction, hv]

/-- Witness for C4: a verify expecting world against a captured hello, then
a createFile action that still runs. -/
theorem verify_mismatch_not_fatal_witness :
    runAllActionsGo execConst
      [.verify ⟨"s", .stdOut⟩ "world", .createFile "f" "c"]
      (State.new.addResult ⟨"s", true, some ⟨"s", "hello", "", 0⟩⟩) =
      (match runAllActionsGo execConst [.createFile "f" "c"]
          ((State.new.addResult ⟨"s", true, some ⟨"s", "hello", "", 0⟩⟩).addResult
            ⟨"s", false, none⟩) with
       | (.ok evs, st2) => (.ok (.testCompleted ⟨"s", false, none⟩ :: evs), st2)
       | (.error e, st2) => (.error e, st2)) :=
  verify_mismatch_not_fatal execConst ⟨"s", .stdOut⟩ "world" [.createFile "f" "c"]
    (State.new.addResult ⟨"s", true, some ⟨"s", "hello", "", 0⟩⟩)
    ⟨"s", "hello", "", 0⟩ rfl (by decide)

/-- Claim C5: with several spec files on one invocation, the run command
processes them strictly in order and stops at the first file whose run
yields a non-success exit code — the trace of invoked files covers exactly
the successful ones and that first failing file, and is unchanged by
whatever files follow it. -/
theorem run_command_stops_at_failure (runFile : String → ExitCode) (fs1 : List String)
    (f : String) (fs2 fs3 : List String)
    (h1 : ∀ g ∈ fs1, runFile g = .success) (h2 : runFile f ≠ .success) :
    executeFiles runFile (fs1 ++ f :: fs2) =
      fs1.map (fun g => (g, ExitCode.success)) ++ [(f, runFile f)] ∧
    executeFiles runFile (fs1 ++ f :: fs2) = executeFiles runFile (fs1 ++ f :: fs3) := by
  induction fs1 with
  | nil => simp [executeFiles, h2]
  | cons g gs ih =>
    have hg : runFile g = .success := h1 g (List.mem_cons_self g gs)
    have ih2 := ih (fun x hx => h1 x (List.mem_cons_of_mem g hx))
    constructor
    · simp [executeFiles, hg, ih2.1]
    · simp [executeFiles, hg, ih2.2]

/-- Witness for C5: of three files, a.md passes and b.md fails, so c.md is
never processed. -/
theorem run_command_stops_at_failure_witness :
    executeFiles runFileProbe ["a.md", "b.md", "c.md"] =
      [("a.md", ExitCode.success), ("b.md", ExitCode.testFailed)] ∧
    executeFiles runFileProbe ["a.md", "b.md", "c.md"] =
      executeFiles runFileProbe ["a.md", "b.md"] := by
  have h := run_command_stops_at_failure runFileProbe ["a.md"] "b.md" ["c.md"] []
    (by decide) (by decide)
  exact h

/-- Claim C6: stream validation is asymmetric — the code-block to_stream
accepts exactly stdout and stderr (so the token output is refused there),
the blockquote to_stream accepts exactly output, stdout and stderr, and in
both grammars any refused token produces an InvalidArgumentValue whose
expected text reads output, stdout or stderr. -/
theorem stream_validation_asymmetry :
    ∀ s : String,
      ((cbToStream s).isSome = (s == "stdout" || s == "stderr")) ∧
      (exceptIsOk (bqToStream s) = (s == "output" || s == "stdout" || s == "stderr")) ∧
      (exceptIsOk (bqToStream s) = false →
        bqToStream s = .error (.invalidArgumentValue s "output, stdout or stderr")) ∧
      (∀ (f : Function) (n : String),
        f.getArg "script_name" = some (.str n) →
        f.getArg "stream" = some (.token s) →
        (cbToStream s).isSome = false →
        verifyToCodeBlockType f =
          .error (.invalidArgumentValue f.name "stream" s "output, stdout or stderr")) := by
  intro s
  refine ⟨?_, ?_, ?_, ?_⟩
  · by_cases h1 : s = "stdout" <;> by_cases h2 : s = "stderr" <;>
      simp_all [cbToStream]
  · simp only [bqToStream]
    split
    · simp_all [exceptIsOk]
    · split
      · simp_all [exceptIsOk]
      · split <;> simp_all [exceptIsOk]
  · simp only [bqToStream]
    split
    · simp [exceptIsOk]
    · split
      · simp [exceptIsOk]
      · split
        · simp [exceptIsOk]
        · intro _; rfl
  · intro f n h1 h2 h3
    have hnone : cbToStream s = none := by
      cases hc : cbToStream s with
      | none => rfl
      | some v => rw [hc] at h3; simp at h3
    simp [verifyToCodeBlockType, getStringArgument, getTokenArgument,
      getRequiredArgument, h1, h2, hnone]

/-- Claim C7: info-string parsing is total — every input either fails the
raw grammar and yields ParserFailed on both paths, or parses to a Function
whose translation (itself total, with every failure inside the declared
error taxonomy) gives the result; no input panics or diverges. -/
theorem parse_total_taxonomy :
    ∀ input : String,
      (rawParse input = none ∧ cbParse input = .error (.parserFailed input) ∧
        bqParse input = .error (.parserFailed input)) ∨
      (∃ f, rawParse input = some f ∧ cbParse input = toCodeBlockType f ∧
        bqParse input = toBlockquoteType f) := by
  intro input
  cases h : rawParse input with
  | none => exact Or.inl ⟨rfl, by simp [cbParse, h], by simp [bqParse, h]⟩
  | some f => exact Or.inr ⟨f, rfl, by simp [cbParse, h], by simp [bqParse, h]⟩

/-- Claim C8: a script function with a string argument name translates to a
Script whose name is that string, with expected exit code None when the
expected_exit_code argument is absent and Some n when it is given as the
integer n. -/
theorem script_translation_exit_code (f : Function) (n : String)
    (h : f.getArg "name" = some (.str n)) :
    (f.hasArgument "expected_exit_code" = false →
      scriptToCodeBlockType f = .ok (.script n none)) ∧
    (∀ c : Nat, f.getArg "expected_exit_code" = some (.int c) →
      scriptToCodeBlockType f = .ok (.script n (some c))) := by
  constructor
  · intro hno
    simp [scriptToCodeBlockType, getStringArgument, getRequiredArgument, h, hno]
  · intro c hc
    have hyes : f.hasArgument "expected_exit_code" = true := by
      simp [Function.hasArgument, hc]
    simp [scriptToCodeBlockType, getStringArgument, getIntegerArgument,
      getRequiredArgument, h, hc, hyes]

/-- Witness for C8: the two concrete script functions of the Rust tests. -/
theorem script_translation_exit_code_witness :
    scriptToCodeBlockType ⟨"script", [("name", .str "n")]⟩ = .ok (.script "n" none) ∧
    scriptToCodeBlockType ⟨"script", [("name", .str "n"), ("expected_exit_code", .int 2)]⟩ =
      .ok (.script "n" (some 2)) :=
  ⟨(script_translation_exit_code ⟨"script", [("name", .str "n")]⟩ "n" (by decide)).1
      (by decide),
   (script_translation_exit_code ⟨"script", [("name", .str "n"), ("expected_exit_code", .int 2)]⟩
      "n" (by decide)).2 2 (by decide)⟩

/-- Claim C9, amended: on the code-block path every IncorrectArgumentType
error carries all four fields — function name, argument name, expected kind
and the kind given — but on the blockquote path the error type itself has
only the expected and got fields, so the function and argument are not
carried there. -/
theorem incorrect_argument_type_fields :
    (∀ (f : Function) (n : String) (i : Nat), f.getArg n = some (.int i) →
      getStringArgument f n =
        .error (.incorrectArgumentType f.name n "string" "integer")) ∧
    (∀ (f : Function) (n t : String), f.getArg n = some (.token t) →
      getStringArgument f n =
        .error (.incorrectArgumentType f.name n "string" "token")) ∧
    (∀ (f : Function) (n s : String), f.getArg n = some (.str s) →
      getIntegerArgument f n =
        .error (.incorrectArgumentType f.name n "integer" "string")) ∧
    (∀ (f : Function) (n t : String), f.getArg n = some (.token t) →
      getIntegerArgument f n =
        .error (.incorrectArgumentType f.name n "integer" "token")) ∧
    (∀ (f : Function) (n : String) (i : Nat), f.getArg n = some (.int i) →
      getTokenArgument f n =
        .error (.incorrectArgumentType f.name n "token" "integer")) ∧
    (∀ (f : Function) (n s : String), f.getArg n = some (.str s) →
      getTokenArgument f n =
        .error (.incorrectArgumentType f.name n "token" "string")) ∧
    (∀ (f : Function) (n t : String), f.getArg n = some (.token t) →
      bqGetStringArgument f n = .error (.incorrectArgumentType "string" "token")) ∧
    (∀ (f : Function) (n s : String), f.getArg n = some (.str s) →
      bqGetTokenArgument f n = .error (.incorrectArgumentType "token" "string")) := by
  refine ⟨?_, ?_, ?_, ?_, ?_, ?_, ?_, ?_⟩ <;> intro f n v h <;>
    simp [getStringArgument, getIntegerArgument, getTokenArgument,
      getRequiredArgument, bqGetStringArgument, bqGetTokenArgument, h]

/-- Counterexample to C9 as stated: two functions differing in both the
function name and the offending argument name produce the very same
blockquote IncorrectArgumentType value, so that error cannot carry the
function or argument field the claim requires. -/
theorem incorrect_argument_type_counterexample :
    toBlockquoteType ⟨"script", [("name", .token "x")]⟩ =
      .error (.incorrectArgumentType "string" "token") ∧
    toBlockquoteType ⟨"verify", [("script_name", .token "x")]⟩ =
      .error (.incorrectArgumentType "string" "token") :=
  ⟨rfl, rfl⟩

/-- Claim C10: to_absolute returns a rooted path unchanged and otherwise
joins it onto spec_dir, and spec_dir is the working directory captured
before the switch into the running directory, so the resolved spec-file
path does not depend on the running-directory option at all. -/
theorem to_absolute_resolution :
    ∀ (proc : ProcState) (rd rd2 : Option RPath) (p : RPath),
      ((executeModel proc rd p).1 = if p.hasRoot then p else pathJoin proc.cwd p) ∧
      (executeModel proc rd p).1 = toAbsolute proc.cwd p ∧
      (executeModel proc rd p).1 = (executeModel proc rd2 p).1 := by
  intro proc rd rd2 p
  exact ⟨rfl, rfl, rfl⟩

end Specdown
